import Mathlib

/-!
Verification of the asynchronous task-orchestration core of doc-smith2:
the priority task queue (`core/services/queue/queue_manager.py`), the event
bus (`core/services/event_bus/event_bus.py`), the rate limiter
(`core/services/rate_limiting/rate_limiter.py`) and the generic error
wrapper (`core/services/error_handling/error_handler.py`).

The Python code is shallowly embedded: datetimes become `Nat` microsecond
timestamps, floats that only ever hold exact values become `ℚ`, dicts
become functions, and the `asyncio.PriorityQueue` is embedded through the
CPython `heapq` algorithms it delegates to (`heappush`, `heappop`,
`_siftdown`, `_siftup`), transcribed operation for operation.  The file
first gives all definitions, then the theorems.
-/

namespace DocSmith

/-- `TaskPriority` enum of `queue_manager.py` (CRITICAL=0 .. BACKGROUND=4). -/
inductive TaskPriority where
  | critical | high | normal | low | background
  deriving DecidableEq, Repr

/-- The `.value` of a `TaskPriority` member. -/
def TaskPriority.val : TaskPriority → Nat
  | .critical => 0
  | .high => 1
  | .normal => 2
  | .low => 3
  | .background => 4

/-- `TaskStatus` enum of `queue_manager.py`. -/
inductive TaskStatus where
  | pending | running | completed | failed | cancelled | retry
  deriving DecidableEq, Repr

/-- `TaskMetrics` dataclass: retry/error counters and timings. -/
structure TaskMetrics where
  retry_count : Nat := 0
  execution_time : ℚ := 0
  queue_time : ℚ := 0
  error_count : Nat := 0
  deriving DecidableEq, Repr

/-- The `Task` dataclass.  `created_at` is a microsecond timestamp; the
payload dict is abstracted to an opaque identity token `data`; the
wall-clock fields `started_at`/`completed_at` are carried but not advanced
by the model. -/
structure Task where
  id : Nat
  type : String
  priority : TaskPriority := .normal
  data : Nat := 0
  status : TaskStatus := .pending
  correlation_id : Option String := none
  max_retries : Nat := 3
  retry_delay : ℚ := 1
  timeout : ℚ := 300
  created_at : Nat := 0
  started_at : Option Nat := none
  completed_at : Option Nat := none
  error : Option String := none
  metrics : TaskMetrics := {}
  deriving DecidableEq, Repr

instance : Inhabited Task := ⟨{ id := 0, type := "" }⟩

/-- `Task.__lt__`: Python tuple comparison
`(self.priority.value, self.created_at) < (other.priority.value, other.created_at)`. -/
def Task.lt (a b : Task) : Bool :=
  a.priority.val < b.priority.val ||
    (a.priority.val == b.priority.val && a.created_at < b.created_at)

/-- The key order underlying `Task.lt`, in `Prop` form. -/
def Task.ltP (a b : Task) : Prop :=
  a.priority.val < b.priority.val ∨
    (a.priority.val = b.priority.val ∧ a.created_at < b.created_at)

/-! ## CPython `heapq`, transcribed

`asyncio.PriorityQueue._put`/`._get` are `heapq.heappush`/`heapq.heappop`.
The heap is the backing list; `getD`/`set` stand for index read/write. -/

/-- Index of the parent of heap slot `i`: `(i - 1) >> 1`. -/
def parentIdx (i : Nat) : Nat := (i - 1) / 2

/-- `heapq._siftdown(heap, startpos, pos)`.  `newitem` is the saved
`heap[pos]`; parents greater than `newitem` are moved down until the slot
for `newitem` is found. -/
def siftdown (newitem : Task) (startpos : Nat) (heap : List Task) (pos : Nat) : List Task :=
  if h : startpos < pos then
    let parent := heap.getD (parentIdx pos) default
    if Task.lt newitem parent then
      siftdown newitem startpos (heap.set pos parent) (parentIdx pos)
    else
      heap.set pos newitem
  else
    heap.set pos newitem
  termination_by pos
  decreasing_by
    simp only [parentIdx]
    omega

/-- The child-selection step of `heapq._siftup`: `childpos` points at the
left child; if a right child exists and the left child is not smaller,
pick the right child. -/
def chooseChild (heap : List Task) (childpos : Nat) : Nat :=
  if childpos + 1 < heap.length &&
      !(Task.lt (heap.getD childpos default) (heap.getD (childpos + 1) default)) then
    childpos + 1
  else
    childpos

/-- The loop of `heapq._siftup`: move the smaller child up until hitting a
leaf; returns the array and the final hole position. -/
def siftupLoop (heap : List Task) (pos : Nat) : List Task × Nat :=
  if h : 2 * pos + 1 < heap.length then
    let cp := chooseChild heap (2 * pos + 1)
    siftupLoop (heap.set pos (heap.getD cp default)) cp
  else
    (heap, pos)
  termination_by heap.length - pos
  decreasing_by
    simp only [List.length_set, chooseChild]
    split <;> omega

/-- `heapq._siftup(heap, pos)`: bubble the hole to a leaf, place the saved
item there, then `_siftdown` back toward `pos`. -/
def siftup (heap : List Task) (pos : Nat) : List Task :=
  let newitem := heap.getD pos default
  let r := siftupLoop heap pos
  siftdown newitem pos r.1 r.2

/-- `heapq.heappush`: append, then `_siftdown(heap, 0, len(heap)-1)`. -/
def heappush (heap : List Task) (item : Task) : List Task :=
  siftdown item 0 (heap ++ [item]) heap.length

/-- `heapq.heappop`: pop the last element; if the heap is still non-empty,
move it to the root and `_siftup(heap, 0)`, returning the old root. -/
def heappop (heap : List Task) : Option (Task × List Task) :=
  match heap with
  | [] => none
  | _ :: _ =>
    let lastelt := heap.getLastD default
    let rest := heap.dropLast
    if rest.isEmpty then some (lastelt, rest)
    else some (rest.getD 0 default, siftup (rest.set 0 lastelt) 0)

/-- Shorthand for an index read of the backing list. -/
def idx (l : List Task) (i : Nat) : Task := l.getD i default

/-- The zero-based binary min-heap invariant maintained by `heapq`:
no entry is strictly below its parent in the `Task.__lt__` order. -/
def IsHeap (l : List Task) : Prop :=
  ∀ i, 0 < i → i < l.length → ¬ Task.ltP (idx l i) (idx l (parentIdx i))

/-- Queue states reachable from the empty priority queue by
`enqueue_task` pushes and worker pops. -/
inductive QueueReachable : List Task → Prop where
  | empty : QueueReachable []
  | push {l} (t : Task) : QueueReachable l → QueueReachable (heappush l t)
  | pop {l t l'} : QueueReachable l → heappop l = some (t, l') → QueueReachable l'

/-- A run of pops collecting the ids of dequeued tasks. -/
def popIds : List Task → Nat → List Nat
  | _, 0 => []
  | l, n + 1 =>
    match heappop l with
    | none => []
    | some (t, l') => t.id :: popIds l' n

/-- An equal-key task: priority NORMAL, `created_at = 0`, distinguished
only by its id. -/
def taskEq (n : Nat) : Task := { id := n, type := "doc" }

/-- Four equal-key tasks enqueued in id order 0, 1, 2, 3. -/
def qIdent : List Task :=
  heappush (heappush (heappush (heappush [] (taskEq 0)) (taskEq 1)) (taskEq 2)) (taskEq 3)

/-- A CRITICAL-priority task enqueued after `taskNormal`. -/
def taskCrit : Task := { id := 1, type := "doc", priority := .critical, created_at := 5 }

/-- A NORMAL-priority task enqueued before `taskCrit`. -/
def taskNormal : Task := { id := 2, type := "doc", priority := .normal, created_at := 3 }

/-! ## The worker loop of `QueueManager._process_tasks` -/

/-- The lifecycle event names published by the queue manager
(`queue_manager.task_queued`, `queue_manager.task_started`,
`queue_manager.task_completed`, `queue_manager.task_retry`,
`queue_manager.task_failed`, `queue_manager.task_cancelled`). -/
inductive QEvent where
  | task_queued | task_started | task_completed | task_retry | task_failed | task_cancelled
  deriving DecidableEq, Repr

/-- Outcome of one handler execution attempt: normal return, or an
exception (handler errors, timeouts and the missing-handler
`QueueProcessingError` all surface this way to the worker loop). -/
inductive ExecOutcome where
  | ok
  | err (msg : String)
  deriving DecidableEq, Repr

/-- `QueueManager._execute_task` (lines 211-259): acquire the rate-limiter
permit (`rate_limiter.acquire` returns normally), look up the handler for
`task.type` — a missing handler raises `QueueProcessingError` *before any
handler call* — otherwise invoke the handler; handler exceptions and
timeouts surface as `err`. -/
def executeTask (handlers : String → Option (Nat → ExecOutcome)) (attempt : Nat)
    (t : Task) : ExecOutcome :=
  match handlers t.type with
  | none => ExecOutcome.err ("No handler registered for task type: " ++ t.type)
  | some f => f attempt

/-- How many times `_execute_task` invokes the task's handler: zero when no
handler is registered for `task.type`, once otherwise. -/
def handlerCalls (handlers : String → Option (Nat → ExecOutcome)) (t : Task) : Nat :=
  match handlers t.type with
  | none => 0
  | some _ => 1

/-- Result of worker-loop processing: the updated task, the lifecycle
events published (in order), the backoff delays slept (in seconds), and
how often the task's handler was invoked. -/
structure IterResult where
  task : Task
  events : List QEvent
  delays : List ℚ
  invocations : Nat
  deriving DecidableEq, Repr

/-- One iteration of `QueueManager._process_tasks` (lines 272-371) on a
popped task: a `CANCELLED` task is skipped outright; otherwise the task is
marked `RUNNING`, `task_started` is published and the task executed.  On
success the task is `COMPLETED` and `task_completed` published.  On *any*
exception, if `retry_count < max_retries` the retry branch increments
`retry_count`, sleeps `retry_delay * (2 ** retry_count)`, re-enqueues and
publishes `task_retry`; otherwise the task is `FAILED` and `task_failed`
published. -/
def workerIteration (handlers : String → Option (Nat → ExecOutcome)) (attempt : Nat)
    (t : Task) : IterResult :=
  if t.status = TaskStatus.cancelled then
    { task := t, events := [], delays := [], invocations := 0 }
  else
    match executeTask handlers attempt t with
    | ExecOutcome.ok =>
        { task := { t with status := TaskStatus.completed },
          events := [QEvent.task_started, QEvent.task_completed],
          delays := [], invocations := handlerCalls handlers t }
    | ExecOutcome.err e =>
        if t.metrics.retry_count < t.max_retries then
          { task := { t with
                      status := TaskStatus.retry,
                      metrics := { t.metrics with
                                   retry_count := t.metrics.retry_count + 1 } },
            events := [QEvent.task_started, QEvent.task_retry],
            delays := [t.retry_delay * 2 ^ (t.metrics.retry_count + 1)],
            invocations := handlerCalls handlers t }
        else
          { task := { t with status := TaskStatus.failed, error := some e },
            events := [QEvent.task_started, QEvent.task_failed],
            delays := [], invocations := handlerCalls handlers t }

/-- Successive worker iterations on one task: an iteration that ends in
`RETRY` re-enqueues the task, which is popped again with the next attempt
index; any other outcome ends the lifecycle.  `fuel` bounds the number of
pops; `max_retries + 1` is always enough. -/
def runTask (handlers : String → Option (Nat → ExecOutcome)) (attempt : Nat)
    (t : Task) (fuel : Nat) : IterResult :=
  match fuel with
  | 0 => { task := t, events := [], delays := [], invocations := 0 }
  | fuel' + 1 =>
    let r := workerIteration handlers attempt t
    if r.task.status = TaskStatus.retry then
      let r2 := runTask handlers (attempt + 1) r.task fuel'
      { task := r2.task, events := r.events ++ r2.events,
        delays := r.delays ++ r2.delays, invocations := r.invocations + r2.invocations }
    else r

/-- A handler registry whose handler raises on every attempt, for every
task type. -/
def failHandlers : String → Option (Nat → ExecOutcome) :=
  fun _ => some (fun _ => ExecOutcome.err "boom")

/-- A handler registry with no handler registered for any type. -/
def noHandlers : String → Option (Nat → ExecOutcome) := fun _ => none

/-- A pending task with `max_retries = 2`. -/
def taskC1 : Task := { id := 7, type := "doc", max_retries := 2 }

/-- A pending task of a type with no registered handler
(`max_retries` keeps the dataclass default 3). -/
def taskC4 : Task := { id := 8, type := "ghost" }

/-- A COMPLETED task. -/
def taskDone : Task := { id := 9, type := "doc", status := TaskStatus.completed }

/-- The queue manager's task table, keyed by task id. -/
def TaskTable := Nat → Option Task

/-- Modelled from the spec: a `cancel(task_id)` method is declared in the
spec's Queue Manager contract — "effective only while `PENDING`; otherwise
a no-op returning false", publishing `task_cancelled` on success — but the
method is absent from `queue_manager.py`; only the worker-loop skip of
`CANCELLED` tasks (lines 279-281) exists in the source.  Returns the
updated table, the boolean result, and the events published. -/
def cancelTask (tasks : TaskTable) (tid : Nat) : TaskTable × Bool × List QEvent :=
  match tasks tid with
  | none => (tasks, false, [])
  | some t =>
    if t.status = TaskStatus.pending then
      (fun i => if i = tid then some { t with status := TaskStatus.cancelled } else tasks i,
        true, [QEvent.task_cancelled])
    else
      (tasks, false, [])

/-- A task table holding the pending `taskC1` under id 1 and the completed
`taskDone` under id 2. -/
def tasksW : TaskTable :=
  fun i => if i = 1 then some taskC1 else if i = 2 then some taskDone else none

/-! ## The event bus -/

/-- The `Event` dataclass of `event_bus.py`; the payload dict is an opaque
identity token `dataId`. -/
structure BusEvent where
  type : String
  source : String
  dataId : Nat
  deriving DecidableEq, Repr

/-- Observable steps of the dispatch loop `EventBus._process_events`:
handler invocation (the handler receives the event object itself) and the
`logger.error` call of the per-handler `except` clause.  The loop body
publishes nothing; the `published` action exists in the vocabulary only so
that this absence can be stated. -/
inductive BusAction where
  | invoke (handler : Nat) (e : BusEvent)
  | logError (handler : Nat) (e : BusEvent)
  | published (e : BusEvent)
  deriving DecidableEq, Repr

/-- The inner `for callback in subscribers` loop of `_process_events`:
each callback is awaited inside `try`; an exception is caught and logged
and the loop continues with the next callback. -/
def runHandlers (raises : Nat → BusEvent → Bool) : List Nat → BusEvent → List BusAction
  | [], _ => []
  | h :: hs, e =>
    BusAction.invoke h e ::
      ((if raises h e then [BusAction.logError h e] else []) ++ runHandlers raises hs e)

/-- The outer loop of `_process_events`: pop events FIFO and, for each, run
every subscriber registered for its type (over a copy of the list) before
moving to the next event. -/
def processEvents (subs : String → List Nat) (raises : Nat → BusEvent → Bool) :
    List BusEvent → List BusAction
  | [] => []
  | e :: rest => runHandlers raises (subs e.type) e ++ processEvents subs raises rest

/-- `EventBus.subscribe`: create the type's subscriber list if needed and
append the callback unless it is already present. -/
def subscribe (subs : String → List Nat) (ty : String) (h : Nat) : String → List Nat :=
  fun s => if s = ty then (if h ∈ subs ty then subs ty else subs ty ++ [h]) else subs s

/-- `EventBus.unsubscribe`: remove the callback (first occurrence) if
present. -/
def unsubscribe (subs : String → List Nat) (ty : String) (h : Nat) : String → List Nat :=
  fun s => if s = ty then (subs ty).erase h else subs s

/-- A subscriber registry reachable by `subscribe`/`unsubscribe` calls from
the initial empty dict. -/
inductive SubsReachable : (String → List Nat) → Prop where
  | empty : SubsReachable (fun _ => [])
  | sub {s} (ty : String) (h : Nat) : SubsReachable s → SubsReachable (subscribe s ty h)
  | unsub {s} (ty : String) (h : Nat) : SubsReachable s → SubsReachable (unsubscribe s ty h)

/-- The handler invocations among a list of bus actions. -/
def invocationsOf (acts : List BusAction) : List (Nat × BusEvent) :=
  acts.filterMap fun a => match a with
    | BusAction.invoke h e => some (h, e)
    | _ => none

/-- The events published by a list of bus actions. -/
def publishedOf (acts : List BusAction) : List BusEvent :=
  acts.filterMap fun a => match a with
    | BusAction.published e => some e
    | _ => none

/-- A concrete bus event of type `"a"`. -/
def eventA : BusEvent := { type := "a", source := "s", dataId := 0 }

/-- Registry with handlers 1 and 2 subscribed, in that order, to type
`"a"`. -/
def subsAB : String → List Nat := subscribe (subscribe (fun _ => []) "a" 1) "a" 2

/-- Handler 1 raises on every event; handler 2 does not. -/
def raisesOne : Nat → BusEvent → Bool := fun h _ => h == 1

/-! ## The `with_error_handling` wrapper -/

/-- `ErrorSeverity` of `error_handler.py`. -/
inductive ErrSeverity where
  | critical | high | medium | low
  deriving DecidableEq, Repr

/-- `ErrorCategory` of `error_handler.py`. -/
inductive ErrCategory where
  | queue | event_bus | rate_limit | api | doc_gen | database | network | system | unknown
  deriving DecidableEq, Repr

/-- A `DocSmithError`: message, category, severity. -/
structure DocSmithErr where
  msg : String
  category : ErrCategory
  severity : ErrSeverity
  deriving DecidableEq, Repr

/-- A Python exception as seen by `with_error_handling`: either already a
`DocSmithError` or any other exception. -/
inductive PyExc where
  | doc (e : DocSmithErr)
  | other (msg : String)
  deriving DecidableEq, Repr

/-- The classification step of the wrapper: a `DocSmithError` is kept
as-is, anything else is wrapped with the decorator's category and
severity. -/
def classify (cat : ErrCategory) (sev : ErrSeverity) : PyExc → DocSmithErr
  | PyExc.doc e => e
  | PyExc.other m => { msg := m, category := cat, severity := sev }

/-- The `for attempt in range(MAX_RETRIES)` recovery loop of the wrapper:
run attempts `start, start+1, ...`, stopping at the first success.
Returns the success (if any), the last error seen, and the number of
attempts consumed; the pre-retry sleeps are not tracked. -/
def retryLoop (f : Nat → Except PyExc Unit) (start : Nat) :
    Nat → Option Unit × Option PyExc × Nat
  | 0 => (none, none, 0)
  | n + 1 =>
    match f start with
    | Except.ok a => (some a, none, 1)
    | Except.error e =>
      let r := retryLoop f (start + 1) n
      (r.1, some (r.2.1.getD e), r.2.2 + 1)

/-- `with_error_handling(category, severity)` around an async function
`f` (indexed by attempt number): call it; on exception classify, log,
publish one `error.occurred` event, and — only when the classified
severity is CRITICAL or HIGH — re-attempt up to `maxRetries` times before
re-raising the last error.  Returns the outcome, the total number of
attempts made, and the events published by the wrapper. -/
def withErrorHandling (cat : ErrCategory) (sev : ErrSeverity) (maxRetries : Nat)
    (f : Nat → Except PyExc Unit) : Except DocSmithErr Unit × Nat × List String :=
  match f 0 with
  | Except.ok a => (Except.ok a, 1, [])
  | Except.error e =>
    let err := classify cat sev e
    if err.severity = ErrSeverity.critical ∨ err.severity = ErrSeverity.high then
      let r := retryLoop f 1 maxRetries
      match r.1 with
      | some a => (Except.ok a, 1 + r.2.2, ["error.occurred"])
      | none =>
        match r.2.1 with
        | some last => (Except.error (classify cat sev last), 1 + r.2.2, ["error.occurred"])
        | none => (Except.error err, 1 + r.2.2, ["error.occurred"])
    else
      (Except.error err, 1, ["error.occurred"])

/-- A function that always raises a HIGH-severity `DocSmithError` of
category QUEUE (not a provider/network/rate-limit kind). -/
def alwaysFailQueueHigh : Nat → Except PyExc Unit :=
  fun _ => Except.error (PyExc.doc ⟨"boom", ErrCategory.queue, ErrSeverity.high⟩)

/-- A function that always raises a plain (non-DocSmith) exception. -/
def alwaysFailOther : Nat → Except PyExc Unit :=
  fun _ => Except.error (PyExc.other "oops")

/-! ## The rate limiter -/

/-- Microseconds per second; datetimes are embedded as microsecond counts. -/
def MICROS : Nat := 1000000

/-- `timedelta.seconds` of a non-negative microsecond delta: whole
seconds, modulo one day. -/
def tdSeconds (d : Nat) : Nat := d / MICROS % 86400

/-- `RateLimitWindow` of `rate_limiter.py`. -/
structure RLWindow where
  requests : Nat
  tokens : Nat
  start_time : Nat
  deriving DecidableEq, Repr

/-- `RateLimiter` state: the two per-minute budgets and the per-key
windows. -/
structure RLState where
  requests_per_minute : Nat
  tokens_per_minute : Nat
  windows : String → Option RLWindow

/-- `RateLimiter._get_or_create_window`: a missing key gets a fresh window
starting now. -/
def getWindow (st : RLState) (model : String) (now : Nat) : RLWindow :=
  match st.windows model with
  | some w => w
  | none => { requests := 0, tokens := 0, start_time := now }

/-- The reset check of `acquire` (lines 31-33): a window strictly older
than one minute is replaced by a fresh one. -/
def maybeExpire (w : RLWindow) (now : Nat) : RLWindow :=
  if 60 * MICROS < now - w.start_time then
    { requests := 0, tokens := 0, start_time := now }
  else w

/-- The request-budget block of `acquire` (lines 36-41): if
`window.requests >= requests_per_minute`, sleep
`60 - elapsed.seconds` seconds and reset the window.  Returns the window,
the time afterwards, and the sleeps performed. -/
def requestGate (st : RLState) (w : RLWindow) (now : Nat) : RLWindow × Nat × List Nat :=
  if st.requests_per_minute ≤ w.requests then
    ({ requests := 0, tokens := 0,
        start_time := now + (60 - tdSeconds (now - w.start_time)) * MICROS },
      now + (60 - tdSeconds (now - w.start_time)) * MICROS,
      [60 - tdSeconds (now - w.start_time)])
  else (w, now, [])

/-- The token-budget block of `acquire` (lines 43-48): if
`window.tokens + tokens > tokens_per_minute`, sleep
`60 - elapsed.seconds` seconds (elapsed re-read after any first sleep) and
reset the window. -/
def tokenGate (st : RLState) (w : RLWindow) (tokens : Nat) (now : Nat) :
    RLWindow × Nat × List Nat :=
  if st.tokens_per_minute < w.tokens + tokens then
    ({ requests := 0, tokens := 0,
        start_time := now + (60 - tdSeconds (now - w.start_time)) * MICROS },
      now + (60 - tdSeconds (now - w.start_time)) * MICROS,
      [60 - tdSeconds (now - w.start_time)])
  else (w, now, [])

/-- `RateLimiter.acquire(model, tokens)` entered at time `now`:
get-or-create the window, run the reset check, the request-budget block
and the token-budget block in order, then count the request and its token
cost.  Time passes only while sleeping.  Returns the new state, the return
time, and the sleeps performed (in seconds). -/
def RLState.acquire (st : RLState) (model : String) (tokens : Nat) (now : Nat) :
    RLState × Nat × List Nat :=
  let w1 := maybeExpire (getWindow st model now) now
  let r := requestGate st w1 now
  let r2 := tokenGate st r.1 tokens r.2.1
  let wF := { r2.1 with requests := r2.1.requests + 1, tokens := r2.1.tokens + tokens }
  ({ st with windows := fun m => if m = model then some wF else st.windows m },
    r2.2.1, r.2.2 ++ r2.2.2)

/-- A fresh limiter: 2 requests and 90000 tokens per minute, no windows. -/
def rlFresh : RLState :=
  { requests_per_minute := 2, tokens_per_minute := 90000, windows := fun _ => none }

/-- First of three back-to-back acquires on one key at time 0. -/
def rlA1 : RLState × Nat × List Nat := rlFresh.acquire "gpt-4" 1 0

/-- Second acquire. -/
def rlA2 : RLState × Nat × List Nat := rlA1.1.acquire "gpt-4" 1 0

/-- Third acquire. -/
def rlA3 : RLState × Nat × List Nat := rlA2.1.acquire "gpt-4" 1 0

/-- A limiter with a 5-token budget and no windows. -/
def rlTok : RLState :=
  { requests_per_minute := 2, tokens_per_minute := 5, windows := fun _ => none }

/-- An acquire whose cost 6 alone exceeds the whole 5-token budget. -/
def rlTokA : RLState × Nat × List Nat := rlTok.acquire "gpt-4" 6 0

/-- A limiter with a 5-token budget whose window for `"gpt-4"` has also
exhausted the request budget. -/
def rlSt10 : RLState :=
  { requests_per_minute := 2, tokens_per_minute := 5,
    windows := fun kk => if kk = "gpt-4" then some ⟨2, 0, 0⟩ else none }

/-! # Theorems -/

/-! ## The task key order -/

theorem Task.lt_iff (a b : Task) : Task.lt a b = true ↔ Task.ltP a b := by
  simp [Task.lt, Task.ltP]

theorem Task.lt_eq_false_iff (a b : Task) : Task.lt a b = false ↔ ¬ Task.ltP a b := by
  rw [← Task.lt_iff]
  cases h : Task.lt a b <;> simp

/-- `¬ <` is transitive for the task key order. -/
theorem Task.ltP_neg_trans {a b c : Task} (hab : ¬ Task.ltP a b) (hbc : ¬ Task.ltP b c) :
    ¬ Task.ltP a c := by
  simp only [Task.ltP, not_or, not_and] at *
  omega

/-- The task key order is asymmetric. -/
theorem Task.ltP_asymm {a b : Task} (h : Task.ltP a b) : ¬ Task.ltP b a := by
  simp only [Task.ltP, not_or, not_and] at *
  omega

/-- The task key order is irreflexive. -/
theorem Task.ltP_irrefl (a : Task) : ¬ Task.ltP a a := by
  simp [Task.ltP]

/-- The task key order is transitive. -/
theorem Task.ltP_trans {a b c : Task} (h1 : Task.ltP a b) (h2 : Task.ltP b c) :
    Task.ltP a c := by
  simp only [Task.ltP] at *
  omega

/-! ## Index bookkeeping -/

theorem idx_set_self (l : List Task) (i : Nat) (x : Task) (h : i < l.length) :
    idx (l.set i x) i = x := by
  simp [idx, List.getD_eq_getElem?_getD, List.getElem?_set_eq_of_lt x h]

theorem idx_set_ne (l : List Task) {i j : Nat} (x : Task) (hne : i ≠ j) :
    idx (l.set i x) j = idx l j := by
  simp [idx, List.getD_eq_getElem?_getD, List.getElem?_set_ne hne]

theorem idx_append_left (l : List Task) {i : Nat} (x : Task) (h : i < l.length) :
    idx (l ++ [x]) i = idx l i := by
  simp [idx, List.getD_eq_getElem?_getD, List.getElem?_append_left h]

theorem idx_append_last (l : List Task) (x : Task) : idx (l ++ [x]) l.length = x := by
  simp [idx, List.getD_eq_getElem?_getD]

theorem idx_dropLast (l : List Task) {i : Nat} (h : i < l.length - 1) :
    idx l.dropLast i = idx l i := by
  simp only [idx, List.getD_eq_getElem?_getD, List.getElem?_dropLast]
  simp [h]

theorem parentIdx_lt {i : Nat} (h : 0 < i) : parentIdx i < i := by
  simp only [parentIdx]; omega

theorem parentIdx_child_ge {c p : Nat} (h : parentIdx c = p) (hc : 0 < c) :
    2 * p + 1 ≤ c := by
  simp only [parentIdx] at h; omega

/-! ## Heap invariant -/

theorem isHeap_nil : IsHeap [] := by
  intro i _ h
  simp at h

/-- In a valid heap no entry is strictly below the root. -/
theorem isHeap_root_min {l : List Task} (hl : IsHeap l) :
    ∀ i, i < l.length → ¬ Task.ltP (idx l i) (idx l 0) := by
  intro i
  induction i using Nat.strong_induction_on with
  | _ i ih =>
    intro hilen
    rcases Nat.eq_zero_or_pos i with rfl | hi
    · exact Task.ltP_irrefl _
    · have hpar := hl i hi hilen
      have hplt : parentIdx i < i := parentIdx_lt hi
      have := ih (parentIdx i) hplt (lt_trans hplt hilen)
      exact Task.ltP_neg_trans hpar this

/-- Invariant preservation for `_siftdown` with `startpos = 0`, the form
used by both `heappush` and the tail of `_siftup`.  The hole at `pos`
conceptually holds `newitem`: away from the hole the parent/child relation
holds, the hole's children dominate `newitem`, and (when the hole is not
the root) the hole's children dominate the hole's parent. -/
theorem siftdown_isHeap (newitem : Task) (pos : Nat) :
    ∀ (heap : List Task),
      pos < heap.length →
      (∀ i, 0 < i → i < heap.length → i ≠ pos → parentIdx i ≠ pos →
        ¬ Task.ltP (idx heap i) (idx heap (parentIdx i))) →
      (∀ c, 0 < c → c < heap.length → parentIdx c = pos →
        ¬ Task.ltP (idx heap c) newitem) →
      (0 < pos → ∀ c, 0 < c → c < heap.length → parentIdx c = pos →
        ¬ Task.ltP (idx heap c) (idx heap (parentIdx pos))) →
      IsHeap (siftdown newitem 0 heap pos) := by
  induction pos using Nat.strong_induction_on with
  | _ pos ih =>
    intro heap hlen hA hB hC
    rw [siftdown]
    by_cases hpos : 0 < pos
    · rw [dif_pos hpos]
      show IsHeap (if Task.lt newitem (idx heap (parentIdx pos)) = true then
        siftdown newitem 0 (heap.set pos (idx heap (parentIdx pos))) (parentIdx pos)
        else heap.set pos newitem)
      have hplt : parentIdx pos < pos := parentIdx_lt hpos
      by_cases hlt : Task.ltP newitem (idx heap (parentIdx pos))
      · rw [if_pos ((Task.lt_iff _ _).mpr hlt)]
        apply ih (parentIdx pos) hplt
        · simp only [List.length_set]
          omega
        · -- heap property away from the new hole
          intro i hi hilen hine hipne
          simp only [List.length_set] at hilen
          by_cases hipos : i = pos
          · subst hipos
            exact absurd rfl hipne
          · by_cases hppos : parentIdx i = pos
            · rw [idx_set_ne heap _ (Ne.symm hipos), hppos,
                idx_set_self heap pos _ hlen]
              exact hC hpos i hi hilen hppos
            · rw [idx_set_ne heap _ (Ne.symm hipos), idx_set_ne heap _ (Ne.symm hppos)]
              exact hA i hi hilen hipos hppos
        · -- children of the new hole dominate `newitem`
          intro c hc hclen hcp
          simp only [List.length_set] at hclen
          by_cases hcpos : c = pos
          · subst hcpos
            rw [idx_set_self heap c _ hlen]
            exact Task.ltP_asymm hlt
          · rw [idx_set_ne heap _ (Ne.symm hcpos)]
            intro hcn
            exact hA c hc hclen hcpos (by omega)
              (by rw [hcp]; exact Task.ltP_trans hcn hlt)
        · -- children of the new hole dominate the new hole's parent
          intro hp0 c hc hclen hcp
          simp only [List.length_set] at hclen
          have hpp : parentIdx (parentIdx pos) < pos := by
            have := parentIdx_lt hp0
            omega
          rw [idx_set_ne heap _ (by omega : pos ≠ parentIdx (parentIdx pos))]
          by_cases hcpos : c = pos
          · subst hcpos
            rw [idx_set_self heap c _ hlen]
            exact hA (parentIdx c) hp0 (by omega) (by omega) (by omega)
          · rw [idx_set_ne heap _ (Ne.symm hcpos)]
            exact Task.ltP_neg_trans
              (by rw [← hcp]; exact hA c hc hclen hcpos (by omega))
              (hA (parentIdx pos) hp0 (by omega) (by omega) (by omega))
      · rw [if_neg (by rw [Task.lt_iff]; exact hlt)]
        intro i hi hilen
        simp only [List.length_set] at hilen
        by_cases hipos : i = pos
        · subst hipos
          rw [idx_set_self heap i _ hlen,
            idx_set_ne heap _ (by omega : i ≠ parentIdx i)]
          exact hlt
        · by_cases hppos : parentIdx i = pos
          · rw [idx_set_ne heap _ (Ne.symm hipos), hppos, idx_set_self heap pos _ hlen]
            exact hB i hi hilen hppos
          · rw [idx_set_ne heap _ (Ne.symm hipos), idx_set_ne heap _ (Ne.symm hppos)]
            exact hA i hi hilen hipos hppos
    · rw [dif_neg hpos]
      have hpos0 : pos = 0 := by omega
      subst hpos0
      intro i hi hilen
      simp only [List.length_set] at hilen
      by_cases hppos : parentIdx i = 0
      · rw [idx_set_ne heap _ (by omega : (0:Nat) ≠ i), hppos, idx_set_self heap 0 _ hlen]
        exact hB i hi hilen hppos
      · rw [idx_set_ne heap _ (by omega : (0:Nat) ≠ i), idx_set_ne heap _ (Ne.symm hppos)]
        exact hA i hi hilen (by omega) hppos

/-- The chosen child is the left or the right child, and is in range. -/
theorem chooseChild_bounds (heap : List Task) (childpos : Nat) (h : childpos < heap.length) :
    (chooseChild heap childpos = childpos ∨ chooseChild heap childpos = childpos + 1) ∧
      chooseChild heap childpos < heap.length := by
  unfold chooseChild
  by_cases hcond : (childpos + 1 < heap.length &&
      !(Task.lt (heap.getD childpos default) (heap.getD (childpos + 1) default))) = true
  · rw [if_pos hcond]
    simp only [Bool.and_eq_true, decide_eq_true_eq] at hcond
    exact ⟨Or.inr rfl, hcond.1⟩
  · rw [if_neg hcond]
    exact ⟨Or.inl rfl, h⟩

/-- The chosen child is not dominated by its sibling. -/
theorem chooseChild_min (heap : List Task) (childpos : Nat) :
    ∀ i, childpos ≤ i → i ≤ childpos + 1 → i < heap.length → i ≠ chooseChild heap childpos →
      ¬ Task.ltP (idx heap i) (idx heap (chooseChild heap childpos)) := by
  intro i hi1 hi2 hil hine
  unfold chooseChild at *
  by_cases hcond : (childpos + 1 < heap.length &&
      !(Task.lt (heap.getD childpos default) (heap.getD (childpos + 1) default))) = true
  · rw [if_pos hcond] at *
    have hieq : i = childpos := by omega
    subst hieq
    simp only [Bool.and_eq_true, Bool.not_eq_true', decide_eq_true_eq] at hcond
    exact (Task.lt_eq_false_iff _ _).mp hcond.2
  · rw [if_neg hcond] at *
    have hieq : i = childpos + 1 := by omega
    subst hieq
    simp only [Bool.and_eq_true, Bool.not_eq_true', decide_eq_true_eq, not_and] at hcond
    have hlt : Task.lt (heap.getD childpos default) (heap.getD (childpos + 1) default) = true := by
      cases hbv : Task.lt (heap.getD childpos default) (heap.getD (childpos + 1) default) with
      | false => exact absurd hbv (hcond hil)
      | true => rfl
    exact Task.ltP_asymm ((Task.lt_iff _ _).mp hlt)

/-- Invariant of the `_siftup` walk-down loop: the hole stays in range, the
length is unchanged, the final hole is a leaf, and the parent/child
relation holds away from the hole. -/
theorem siftupLoop_spec :
    ∀ (heap : List Task) (pos : Nat),
      pos < heap.length →
      (∀ i, 0 < i → i < heap.length → i ≠ pos → parentIdx i ≠ pos →
        ¬ Task.ltP (idx heap i) (idx heap (parentIdx i))) →
      (0 < pos → ∀ c, 0 < c → c < heap.length → parentIdx c = pos →
        ¬ Task.ltP (idx heap c) (idx heap (parentIdx pos))) →
      (siftupLoop heap pos).2 < (siftupLoop heap pos).1.length ∧
      (siftupLoop heap pos).1.length = heap.length ∧
      (siftupLoop heap pos).1.length ≤ 2 * (siftupLoop heap pos).2 + 1 ∧
      (∀ i, 0 < i → i < (siftupLoop heap pos).1.length → i ≠ (siftupLoop heap pos).2 →
        parentIdx i ≠ (siftupLoop heap pos).2 →
        ¬ Task.ltP (idx (siftupLoop heap pos).1 i)
          (idx (siftupLoop heap pos).1 (parentIdx i))) := by
  intro heap pos
  induction heap, pos using siftupLoop.induct with
  | case1 heap pos hchild cp ih =>
    intro hlen hA hC
    have hcpv : cp = chooseChild heap (2 * pos + 1) := rfl
    rw [hcpv] at ih
    have hcb := chooseChild_bounds heap (2 * pos + 1) hchild
    have hcpar : parentIdx (chooseChild heap (2 * pos + 1)) = pos := by
      rcases hcb.1 with hc | hc
      · rw [hc]; simp only [parentIdx]; omega
      · rw [hc]; simp only [parentIdx]; omega
    have hlenset : (heap.set pos
        (heap.getD (chooseChild heap (2 * pos + 1)) default)).length = heap.length := by
      simp
    have hA' : ∀ i, 0 < i →
        i < (heap.set pos (heap.getD (chooseChild heap (2 * pos + 1)) default)).length →
        i ≠ chooseChild heap (2 * pos + 1) → parentIdx i ≠ chooseChild heap (2 * pos + 1) →
        ¬ Task.ltP (idx (heap.set pos (heap.getD (chooseChild heap (2 * pos + 1)) default)) i)
          (idx (heap.set pos (heap.getD (chooseChild heap (2 * pos + 1)) default))
            (parentIdx i)) := by
      intro i hi hilen hine hipne
      rw [hlenset] at hilen
      by_cases hip : i = pos
      · have h1 : idx (heap.set pos (heap.getD (chooseChild heap (2 * pos + 1)) default)) i
            = idx heap (chooseChild heap (2 * pos + 1)) := by
          rw [hip]
          exact idx_set_self heap pos _ hlen
        have hpne : pos ≠ parentIdx i := by
          have := parentIdx_lt hi
          omega
        have h2 : idx (heap.set pos (heap.getD (chooseChild heap (2 * pos + 1)) default))
            (parentIdx i) = idx heap (parentIdx i) := idx_set_ne heap _ hpne
        rw [h1, h2, hip]
        exact hC (by omega) _ (by rcases hcb.1 with hc | hc <;> omega) hcb.2 hcpar
      · by_cases hpp : parentIdx i = pos
        · rw [idx_set_ne heap _ (Ne.symm hip), hpp, idx_set_self heap pos _ hlen]
          exact chooseChild_min heap (2 * pos + 1) i
            (parentIdx_child_ge hpp hi)
            (by simp only [parentIdx] at hpp; omega) hilen hine
        · rw [idx_set_ne heap _ (Ne.symm hip), idx_set_ne heap _ (Ne.symm hpp)]
          exact hA i hi hilen hip hpp
    have hC' : 0 < chooseChild heap (2 * pos + 1) → ∀ c, 0 < c →
        c < (heap.set pos (heap.getD (chooseChild heap (2 * pos + 1)) default)).length →
        parentIdx c = chooseChild heap (2 * pos + 1) →
        ¬ Task.ltP (idx (heap.set pos (heap.getD (chooseChild heap (2 * pos + 1)) default)) c)
          (idx (heap.set pos (heap.getD (chooseChild heap (2 * pos + 1)) default))
            (parentIdx (chooseChild heap (2 * pos + 1)))) := by
      intro hcp0 c hc hclen hpc
      rw [hlenset] at hclen
      have hcge := parentIdx_child_ge hpc hc
      have hcne : c ≠ pos := by
        rcases hcb.1 with hcc | hcc <;> omega
      rw [hcpar, idx_set_self heap pos _ hlen, idx_set_ne heap _ (Ne.symm hcne)]
      have hres := hA c hc hclen hcne
        (by rw [hpc]; rcases hcb.1 with hcc | hcc <;> omega)
      rw [hpc] at hres
      simp only [idx] at hres ⊢
      exact hres
    have hunf : siftupLoop heap pos =
        siftupLoop (heap.set pos (heap.getD (chooseChild heap (2 * pos + 1)) default))
          (chooseChild heap (2 * pos + 1)) := by
      rw [siftupLoop, dif_pos hchild]
    rw [hunf]
    obtain ⟨m1, m2, m3, m4⟩ := ih (by rw [hlenset]; exact hcb.2) hA' hC'
    exact ⟨m1, by rw [m2, hlenset], m3, m4⟩
  | case2 heap pos hnochild =>
    intro hlen hA hC
    have hunf : siftupLoop heap pos = (heap, pos) := by
      rw [siftupLoop, dif_neg hnochild]
    rw [hunf]
    exact ⟨hlen, rfl, by show heap.length ≤ 2 * pos + 1; omega, hA⟩

/-- `_siftup(heap, 0)` restores the heap invariant when the parent/child
relation holds everywhere except possibly at the root's children. -/
theorem siftup_isHeap (heap : List Task) (h0 : 0 < heap.length)
    (hA : ∀ i, 0 < i → i < heap.length → parentIdx i ≠ 0 →
      ¬ Task.ltP (idx heap i) (idx heap (parentIdx i))) :
    IsHeap (siftup heap 0) := by
  have hspec := siftupLoop_spec heap 0 h0
    (by intro i hi hilen hine hipne; exact hA i hi hilen hipne)
    (by intro h; omega)
  show IsHeap (siftdown (heap.getD 0 default) 0 (siftupLoop heap 0).1 (siftupLoop heap 0).2)
  apply siftdown_isHeap (heap.getD 0 default) (siftupLoop heap 0).2 (siftupLoop heap 0).1
    hspec.1
  · exact hspec.2.2.2
  · intro c hc hclen hcp
    have := parentIdx_child_ge hcp hc
    omega
  · intro hq0 c hc hclen hcp
    have := parentIdx_child_ge hcp hc
    omega

/-- `heappush` preserves the heap invariant. -/
theorem heappush_isHeap {l : List Task} (hl : IsHeap l) (x : Task) :
    IsHeap (heappush l x) := by
  show IsHeap (siftdown x 0 (l ++ [x]) l.length)
  apply siftdown_isHeap x l.length (l ++ [x]) (by simp)
  · intro i hi hilen hine hipne
    simp only [List.length_append, List.length_cons, List.length_nil] at hilen
    have hil : i < l.length := by omega
    have hpil : parentIdx i < l.length := by
      have := parentIdx_lt hi
      omega
    rw [idx_append_left l _ hil, idx_append_left l _ hpil]
    exact hl i hi hil
  · intro c hc hclen hcp
    have := parentIdx_child_ge hcp hc
    simp only [List.length_append, List.length_cons, List.length_nil] at hclen
    omega
  · intro h0 c hc hclen hcp
    have := parentIdx_child_ge hcp hc
    simp only [List.length_append, List.length_cons, List.length_nil] at hclen
    omega

/-- `heappop` returns the root of the heap. -/
theorem heappop_fst {l : List Task} {t : Task} {l' : List Task}
    (h : heappop l = some (t, l')) : t = idx l 0 := by
  match l with
  | [] => simp [heappop] at h
  | a :: rest =>
    simp only [heappop] at h
    by_cases hre : ((a :: rest).dropLast).isEmpty
    · rw [if_pos hre] at h
      simp only [Option.some.injEq, Prod.mk.injEq] at h
      have hrnil : rest = [] := by
        have h0 := List.isEmpty_iff.mp hre
        have h1 : (a :: rest).dropLast.length = 0 := by rw [h0]; rfl
        simp only [List.length_dropLast, List.length_cons] at h1
        exact List.eq_nil_of_length_eq_zero (by omega)
      subst hrnil
      rw [← h.1]
      rfl
    · rw [if_neg hre] at h
      simp only [Option.some.injEq, Prod.mk.injEq] at h
      have hlen2 : 1 < (a :: rest).length := by
        rcases rest with _ | ⟨b, rest'⟩
        · simp [List.dropLast] at hre
        · simp only [List.length_cons]; omega
      rw [← h.1]
      show idx ((a :: rest).dropLast) 0 = idx (a :: rest) 0
      exact idx_dropLast (a :: rest) (by simp only [List.length_cons] at *; omega)

/-- `heappop` preserves the heap invariant. -/
theorem heappop_isHeap {l : List Task} (hl : IsHeap l) {t : Task} {l' : List Task}
    (h : heappop l = some (t, l')) : IsHeap l' := by
  match l with
  | [] => simp [heappop] at h
  | a :: rest =>
    simp only [heappop] at h
    by_cases hre : ((a :: rest).dropLast).isEmpty
    · rw [if_pos hre] at h
      simp only [Option.some.injEq, Prod.mk.injEq] at h
      rw [← h.2]
      rw [List.isEmpty_iff.mp hre]
      exact isHeap_nil
    · rw [if_neg hre] at h
      simp only [Option.some.injEq, Prod.mk.injEq] at h
      rw [← h.2]
      have hrl : 0 < ((a :: rest).dropLast).length := by
        rcases hna : (a :: rest).dropLast with _ | _
        · rw [hna] at hre; simp at hre
        · simp [hna]
      apply siftup_isHeap
      · simp only [List.length_set]
        exact hrl
      · intro i hi hilen hipne
        simp only [List.length_set] at hilen
        have hidl : i < (a :: rest).length - 1 := by
          simp only [List.length_dropLast] at hilen
          omega
        have hpdl : parentIdx i < (a :: rest).length - 1 := by
          have := parentIdx_lt hi
          omega
        rw [idx_set_ne _ _ (by omega : (0:Nat) ≠ i),
          idx_set_ne _ _ (Ne.symm hipne),
          idx_dropLast _ hidl, idx_dropLast _ hpdl]
        exact hl i hi (by simp only [List.length_cons] at *; omega)

/-- Every reachable queue state is a valid binary heap. -/
theorem queueReachable_isHeap {l : List Task} (h : QueueReachable l) : IsHeap l := by
  induction h with
  | empty => exact isHeap_nil
  | push t _ ih => exact heappush_isHeap ih t
  | pop _ hpop ih => exact heappop_isHeap ih hpop

/-! ## Claim C2 -/

/-- Claim C2 (amended): in every queue state reachable by enqueues and
dequeues, whenever tasks `x` and `y` are both pending and `x` has a
strictly lower priority value — or equal priority value and strictly
earlier `created_at` — the next dequeue never returns `y`.  (Enqueue order
within a tier is reflected in the dequeue order exactly when the
`created_at` timestamps differ; the original claim's guarantee for
identical timestamps fails, see `C2_counterexample`.) -/
theorem C2_priority_dispatch {l : List Task} (hreach : QueueReachable l)
    (x y : Task) (hx : x ∈ l) (hy : y ∈ l)
    (hxy : x.priority.val < y.priority.val ∨
      (x.priority.val = y.priority.val ∧ x.created_at < y.created_at))
    {t : Task} {l' : List Task} (hpop : heappop l = some (t, l')) : t ≠ y := by
  have hheap := queueReachable_isHeap hreach
  have ht0 : t = idx l 0 := heappop_fst hpop
  obtain ⟨i, hi, hix⟩ := List.mem_iff_getElem.mp hx
  have hxi : idx l i = x := by
    simp [idx, List.getD_eq_getElem?_getD, List.getElem?_eq_getElem hi, hix]
  have hmin := isHeap_root_min hheap i hi
  rw [hxi] at hmin
  intro hty
  rw [ht0] at hty
  rw [hty] at hmin
  exact hmin hxy

/-- Witness for C2: with a NORMAL task enqueued first and a CRITICAL task
enqueued second, the next pop is not the NORMAL task. -/
theorem C2_priority_dispatch_witness : taskCrit ≠ taskNormal := by
  have hq : heappush (heappush [] taskNormal) taskCrit = [taskCrit, taskNormal] := by
    simp [heappush, siftdown, taskCrit, taskNormal, Task.lt, TaskPriority.val, parentIdx]
  have hpop : heappop (heappush (heappush [] taskNormal) taskCrit)
      = some (taskCrit, [taskNormal]) := by
    simp [heappop, heappush, siftdown, siftup, siftupLoop, chooseChild, taskCrit,
      taskNormal, Task.lt, TaskPriority.val, parentIdx]
  exact C2_priority_dispatch
    (QueueReachable.push taskCrit (QueueReachable.push taskNormal QueueReachable.empty))
    taskCrit taskNormal (by rw [hq]; simp) (by rw [hq]; simp)
    (by simp [taskCrit, taskNormal, TaskPriority.val]) hpop

/-- Claim C2 counterexample: four tasks of equal priority and *identical*
`created_at`, enqueued in id order 0, 1, 2, 3, are dequeued in order
0, 2, 1, 3: task 1 was enqueued before task 2 (same tier, same timestamp)
yet task 2 is dequeued first, so stable FIFO fails for identical
timestamps. -/
theorem C2_counterexample :
    popIds qIdent 4 = [0, 2, 1, 3] ∧
    (taskEq 1).priority = (taskEq 2).priority ∧
    (taskEq 1).created_at = (taskEq 2).created_at := by
  refine ⟨?_, rfl, rfl⟩
  simp [popIds, qIdent, heappop, heappush, siftdown, siftup, siftupLoop, chooseChild,
    taskEq, Task.lt, TaskPriority.val, parentIdx]

/-! ## The worker loop on failing tasks -/

/-- One worker iteration on a non-cancelled task whose execution raises. -/
theorem workerIteration_err (handlers : String → Option (Nat → ExecOutcome)) (a : Nat)
    (t : Task) (e : String) (hcanc : ¬ t.status = TaskStatus.cancelled)
    (hex : executeTask handlers a t = ExecOutcome.err e) :
    workerIteration handlers a t =
      if t.metrics.retry_count < t.max_retries then
        { task := { t with
            status := TaskStatus.retry,
            metrics := { t.metrics with retry_count := t.metrics.retry_count + 1 } },
          events := [QEvent.task_started, QEvent.task_retry],
          delays := [t.retry_delay * 2 ^ (t.metrics.retry_count + 1)],
          invocations := handlerCalls handlers t }
      else
        { task := { t with status := TaskStatus.failed, error := some e },
          events := [QEvent.task_started, QEvent.task_failed],
          delays := [], invocations := handlerCalls handlers t } := by
  unfold workerIteration
  rw [if_neg hcanc, hex]

/-- Unfolding `runTask` at positive fuel when the iteration ends in RETRY:
the task is re-enqueued and processing continues. -/
theorem runTask_succ_retry (handlers : String → Option (Nat → ExecOutcome)) (a : Nat)
    (t : Task) (n : Nat)
    (h : (workerIteration handlers a t).task.status = TaskStatus.retry) :
    runTask handlers a t (n + 1) =
      { task := (runTask handlers (a + 1) (workerIteration handlers a t).task n).task,
        events := (workerIteration handlers a t).events ++
          (runTask handlers (a + 1) (workerIteration handlers a t).task n).events,
        delays := (workerIteration handlers a t).delays ++
          (runTask handlers (a + 1) (workerIteration handlers a t).task n).delays,
        invocations := (workerIteration handlers a t).invocations +
          (runTask handlers (a + 1) (workerIteration handlers a t).task n).invocations } := by
  simp only [runTask]
  rw [if_pos h]

/-- Unfolding `runTask` at positive fuel when the iteration does not end in
RETRY: the lifecycle ends with that iteration. -/
theorem runTask_succ_stop (handlers : String → Option (Nat → ExecOutcome)) (a : Nat)
    (t : Task) (n : Nat)
    (h : ¬ (workerIteration handlers a t).task.status = TaskStatus.retry) :
    runTask handlers a t (n + 1) = workerIteration handlers a t := by
  simp only [runTask]
  rw [if_neg h]

/-- A task whose every execution attempt raises is retried while
`retry_count < max_retries`, each retry incrementing `retry_count` and
sleeping `retry_delay * 2 ^ retry_count` (with the incremented count), and
is then marked FAILED, publishing exactly one `task_failed`.  Generalized
over the starting `retry_count = k`. -/
theorem runTask_fail_spec (handlers : String → Option (Nat → ExecOutcome))
    (msg : Nat → String) (ty : String)
    (hexec : ∀ a (u : Task), u.type = ty →
      executeTask handlers a u = ExecOutcome.err (msg a)) :
    ∀ (fuel k m a : Nat) (t : Task), t.type = ty → ¬ t.status = TaskStatus.cancelled →
      t.metrics.retry_count = k → t.max_retries = m → k ≤ m → fuel = m + 1 - k →
      (runTask handlers a t fuel).task.status = TaskStatus.failed ∧
      (runTask handlers a t fuel).task.metrics.retry_count = m ∧
      (runTask handlers a t fuel).events.count QEvent.task_failed = 1 ∧
      (runTask handlers a t fuel).events.count QEvent.task_retry = m - k ∧
      (runTask handlers a t fuel).delays =
        (List.range' (k + 1) (m - k)).map (fun j => t.retry_delay * 2 ^ j) ∧
      (runTask handlers a t fuel).invocations = (m + 1 - k) * handlerCalls handlers t := by
  intro fuel
  induction fuel with
  | zero =>
    intro k m a t _ _ _ _ hkm hf
    omega
  | succ n ih =>
    intro k m a t hty hcanc hrc hmr hkm hf
    have hwi := workerIteration_err handlers a t (msg a) hcanc (hexec a t hty)
    by_cases hlt : t.metrics.retry_count < t.max_retries
    · rw [if_pos hlt] at hwi
      have hstat : (workerIteration handlers a t).task.status = TaskStatus.retry := by
        rw [hwi]
      rw [runTask_succ_retry handlers a t n hstat]
      obtain ⟨s1, s2, s3, s4, s5, s6⟩ := ih (k + 1) m (a + 1)
        (workerIteration handlers a t).task
        (by rw [hwi]; exact hty)
        (by rw [hwi]; simp)
        (by rw [hwi]; simp [hrc])
        (by rw [hwi]; exact hmr)
        (by omega) (by omega)
      refine ⟨s1, s2, ?_, ?_, ?_, ?_⟩
      · rw [show ((workerIteration handlers a t).events ++
            (runTask handlers (a + 1) (workerIteration handlers a t).task n).events).count
              QEvent.task_failed =
            ((workerIteration handlers a t).events).count QEvent.task_failed +
            ((runTask handlers (a + 1) (workerIteration handlers a t).task n).events).count
              QEvent.task_failed from List.count_append _ _ _, s3, hwi]
        show ([QEvent.task_started, QEvent.task_retry] : List QEvent).count
          QEvent.task_failed + 1 = 1
        decide
      · rw [show ((workerIteration handlers a t).events ++
            (runTask handlers (a + 1) (workerIteration handlers a t).task n).events).count
              QEvent.task_retry =
            ((workerIteration handlers a t).events).count QEvent.task_retry +
            ((runTask handlers (a + 1) (workerIteration handlers a t).task n).events).count
              QEvent.task_retry from List.count_append _ _ _, s4, hwi]
        show ([QEvent.task_started, QEvent.task_retry] : List QEvent).count
          QEvent.task_retry + (m - (k + 1)) = m - k
        have h1 : ([QEvent.task_started, QEvent.task_retry] : List QEvent).count
            QEvent.task_retry = 1 := by decide
        rw [h1]
        omega
      · rw [s5, hwi]
        show [t.retry_delay * 2 ^ (t.metrics.retry_count + 1)] ++
          (List.range' (k + 1 + 1) (m - (k + 1))).map (fun j => t.retry_delay * 2 ^ j) =
          (List.range' (k + 1) (m - k)).map (fun j => t.retry_delay * 2 ^ j)
        have hr : m - k = (m - (k + 1)) + 1 := by omega
        rw [hr, List.range'_succ, List.map_cons, hrc]
        rfl
      · rw [s6, hwi]
        show handlerCalls handlers t + (m + 1 - (k + 1)) * handlerCalls handlers t =
          (m + 1 - k) * handlerCalls handlers t
        have hmk : m + 1 - k = (m + 1 - (k + 1)) + 1 := by omega
        rw [hmk]
        ring
    · rw [if_neg hlt] at hwi
      have hkm2 : k = m := by omega
      have hstat : ¬ (workerIteration handlers a t).task.status = TaskStatus.retry := by
        rw [hwi]
        simp
      rw [runTask_succ_stop handlers a t n hstat, hwi]
      subst hkm2
      refine ⟨rfl, hrc, ?_, ?_, ?_, ?_⟩
      · show ([QEvent.task_started, QEvent.task_failed] : List QEvent).count
          QEvent.task_failed = 1
        decide
      · show ([QEvent.task_started, QEvent.task_failed] : List QEvent).count
          QEvent.task_retry = k - k
        rw [Nat.sub_self]
        decide
      · show ([] : List ℚ) =
          (List.range' (k + 1) (k - k)).map (fun j => t.retry_delay * 2 ^ j)
        rw [Nat.sub_self]
        rfl
      · show handlerCalls handlers t = (k + 1 - k) * handlerCalls handlers t
        rw [show k + 1 - k = 1 from by omega, Nat.one_mul]

/-! ## Claims C1, C4, C9 -/

/-- Claim C1: a task enqueued with `max_retries = m` whose handler raises
on every attempt ends FAILED with `metrics.retry_count = m`, and exactly
one `task_failed` event is published for it; the retry branch fires only
while `retry_count < max_retries`, incrementing `retry_count` each time
(hence exactly `m` `task_retry` events). -/
theorem C1_retry_exhaustion (handlers : String → Option (Nat → ExecOutcome))
    (t : Task) (f : Nat → ExecOutcome) (msg : Nat → String)
    (hh : handlers t.type = some f) (hf : ∀ n, f n = ExecOutcome.err (msg n))
    (hst : t.status = TaskStatus.pending) (hrc : t.metrics.retry_count = 0) :
    (runTask handlers 0 t (t.max_retries + 1)).task.status = TaskStatus.failed ∧
    (runTask handlers 0 t (t.max_retries + 1)).task.metrics.retry_count = t.max_retries ∧
    (runTask handlers 0 t (t.max_retries + 1)).events.count QEvent.task_failed = 1 ∧
    (runTask handlers 0 t (t.max_retries + 1)).events.count QEvent.task_retry
      = t.max_retries := by
  have hexec : ∀ a (u : Task), u.type = t.type →
      executeTask handlers a u = ExecOutcome.err (msg a) := by
    intro a u hty
    unfold executeTask
    rw [hty, hh]
    exact hf a
  obtain ⟨s1, s2, s3, s4, _, _⟩ := runTask_fail_spec handlers msg t.type hexec
    (t.max_retries + 1) 0 t.max_retries 0 t rfl (by rw [hst]; simp) hrc rfl
    (by omega) (by omega)
  refine ⟨s1, s2, s3, ?_⟩
  rw [s4]
  omega

/-- Witness for C1 at `max_retries = 2` with an always-raising handler. -/
theorem C1_retry_exhaustion_witness :
    (runTask failHandlers 0 taskC1 3).task.status = TaskStatus.failed ∧
    (runTask failHandlers 0 taskC1 3).task.metrics.retry_count = 2 ∧
    (runTask failHandlers 0 taskC1 3).events.count QEvent.task_failed = 1 ∧
    (runTask failHandlers 0 taskC1 3).events.count QEvent.task_retry = 2 :=
  C1_retry_exhaustion failHandlers taskC1 (fun _ => ExecOutcome.err "boom")
    (fun _ => "boom") rfl (fun _ => rfl) rfl rfl

/-- Claim C4 counterexample: the first worker iteration on a pending task
whose type has no registered handler leaves the task in RETRY (not FAILED),
increments `retry_count` to 1 (it does not stay 0), and publishes a
`task_retry` event — the missing-handler `QueueProcessingError` is caught
by the generic retry branch like any other failure. -/
theorem C4_counterexample :
    noHandlers taskC4.type = none ∧
    taskC4.status = TaskStatus.pending ∧
    taskC4.metrics.retry_count = 0 ∧
    (workerIteration noHandlers 0 taskC4).task.status = TaskStatus.retry ∧
    (workerIteration noHandlers 0 taskC4).task.metrics.retry_count = 1 ∧
    (workerIteration noHandlers 0 taskC4).events
      = [QEvent.task_started, QEvent.task_retry] :=
  ⟨rfl, rfl, rfl, rfl, rfl, rfl⟩

/-- Claim C4 (amended): a pending task whose type has no registered handler
is *not* failed immediately: the `QueueProcessingError` raised before any
handler call takes the generic retry path, so the task is retried until
`retry_count = max_retries` (publishing `task_retry` each time) and only
then marked FAILED with one `task_failed`; the handler is never invoked. -/
theorem C4_unregistered_retries (handlers : String → Option (Nat → ExecOutcome))
    (t : Task) (hh : handlers t.type = none)
    (hst : t.status = TaskStatus.pending) (hrc : t.metrics.retry_count = 0) :
    (runTask handlers 0 t (t.max_retries + 1)).task.status = TaskStatus.failed ∧
    (runTask handlers 0 t (t.max_retries + 1)).task.metrics.retry_count = t.max_retries ∧
    (runTask handlers 0 t (t.max_retries + 1)).events.count QEvent.task_retry
      = t.max_retries ∧
    (runTask handlers 0 t (t.max_retries + 1)).events.count QEvent.task_failed = 1 ∧
    (runTask handlers 0 t (t.max_retries + 1)).invocations = 0 := by
  have hexec : ∀ a (u : Task), u.type = t.type →
      executeTask handlers a u
        = ExecOutcome.err ("No handler registered for task type: " ++ t.type) := by
    intro a u hty
    unfold executeTask
    rw [hty, hh]
  obtain ⟨s1, s2, s3, s4, _, s6⟩ := runTask_fail_spec handlers
    (fun _ => "No handler registered for task type: " ++ t.type) t.type hexec
    (t.max_retries + 1) 0 t.max_retries 0 t rfl (by rw [hst]; simp) hrc rfl
    (by omega) (by omega)
  have hcalls : handlerCalls handlers t = 0 := by
    unfold handlerCalls
    rw [hh]
  refine ⟨s1, s2, by rw [s4]; omega, s3, ?_⟩
  rw [s6, hcalls]
  ring

/-- Witness for C4 (amended) at the dataclass default `max_retries = 3`. -/
theorem C4_unregistered_retries_witness :
    (runTask noHandlers 0 taskC4 4).task.status = TaskStatus.failed ∧
    (runTask noHandlers 0 taskC4 4).task.metrics.retry_count = 3 ∧
    (runTask noHandlers 0 taskC4 4).events.count QEvent.task_retry = 3 ∧
    (runTask noHandlers 0 taskC4 4).events.count QEvent.task_failed = 1 ∧
    (runTask noHandlers 0 taskC4 4).invocations = 0 :=
  C4_unregistered_retries noHandlers taskC4 rfl rfl rfl

/-- Claim C9 (amended): every retry delay equals
`retry_delay * 2 ^ retry_count` computed with the already-incremented
`retry_count` (the multiplier is the literal 2), so the delays of an
always-failing run are exactly `retry_delay * 2^1, ..., retry_delay * 2^m`;
each is bounded by `retry_delay * 2 ^ max_retries` because
`retry_count ≤ max_retries`, but no fixed cap is applied (see the
counterexample). -/
theorem C9_backoff_delays (handlers : String → Option (Nat → ExecOutcome))
    (t : Task) (f : Nat → ExecOutcome) (msg : Nat → String)
    (hh : handlers t.type = some f) (hf : ∀ n, f n = ExecOutcome.err (msg n))
    (hst : t.status = TaskStatus.pending) (hrc : t.metrics.retry_count = 0) :
    (runTask handlers 0 t (t.max_retries + 1)).delays =
      (List.range' 1 t.max_retries).map (fun j => t.retry_delay * 2 ^ j) ∧
    (0 ≤ t.retry_delay →
      ∀ d ∈ (runTask handlers 0 t (t.max_retries + 1)).delays,
        d ≤ t.retry_delay * 2 ^ t.max_retries) := by
  have hexec : ∀ a (u : Task), u.type = t.type →
      executeTask handlers a u = ExecOutcome.err (msg a) := by
    intro a u hty
    unfold executeTask
    rw [hty, hh]
    exact hf a
  obtain ⟨_, _, _, _, s5, _⟩ := runTask_fail_spec handlers msg t.type hexec
    (t.max_retries + 1) 0 t.max_retries 0 t rfl (by rw [hst]; simp) hrc rfl
    (by omega) (by omega)
  rw [show (0:Nat) + 1 = 1 from rfl, Nat.sub_zero] at s5
  refine ⟨s5, ?_⟩
  intro hpos d hd
  rw [s5] at hd
  obtain ⟨j, hj, rfl⟩ := List.mem_map.mp hd
  have hjm : j ≤ t.max_retries := by
    have := List.mem_range'_1.mp hj
    omega
  have h2 : (2:ℚ) ^ j ≤ 2 ^ t.max_retries := by
    apply pow_le_pow_right₀ (by norm_num) hjm
  exact mul_le_mul_of_nonneg_left h2 hpos

/-- Witness for C9 (amended) at `retry_delay = 1`, `max_retries = 2`:
delays are exactly `2, 4`, each at most `1 * 2^2`. -/
theorem C9_backoff_delays_witness :
    (runTask failHandlers 0 taskC1 3).delays =
      (List.range' 1 2).map (fun j => taskC1.retry_delay * 2 ^ j) ∧
    (0 ≤ taskC1.retry_delay →
      ∀ d ∈ (runTask failHandlers 0 taskC1 3).delays,
        d ≤ taskC1.retry_delay * 2 ^ 2) :=
  C9_backoff_delays failHandlers taskC1 (fun _ => ExecOutcome.err "boom")
    (fun _ => "boom") rfl (fun _ => rfl) rfl rfl

/-- Claim C9 counterexample: no fixed cap bounds the retry delay — for
every candidate cap there is a task (retry_delay 1, large enough
`max_retries`) one of whose actually-slept retry delays exceeds it, since
the code computes `retry_delay * (2 ** retry_count)` with no maximum
applied. -/
theorem C9_counterexample :
    ¬ ∃ cap : ℚ, ∀ (t : Task) (d : ℚ),
      d ∈ (runTask failHandlers 0 t (t.max_retries + 1)).delays → d ≤ cap := by
  rintro ⟨cap, hcap⟩
  obtain ⟨n, hn⟩ := exists_nat_gt cap
  have hexec : ∀ a (u : Task), u.type = "doc" →
      executeTask failHandlers a u = ExecOutcome.err "boom" := by
    intro a u _
    rfl
  obtain ⟨_, _, _, _, s5, _⟩ := runTask_fail_spec failHandlers (fun _ => "boom") "doc" hexec
    (n + 1 + 1) 0 (n + 1) 0 { id := 0, type := "doc", max_retries := n + 1 } rfl
    (by simp) rfl rfl (by omega) (by omega)
  have hdmem : ((1:ℚ) * 2 ^ (n + 1)) ∈
      (runTask failHandlers 0
        ({ id := 0, type := "doc", max_retries := n + 1 } : Task) (n + 1 + 1)).delays := by
    rw [s5]
    exact List.mem_map.mpr ⟨n + 1, List.mem_range'_1.mpr ⟨by omega, by omega⟩, rfl⟩
  have hle := hcap { id := 0, type := "doc", max_retries := n + 1 } _ hdmem
  have hlt : (n:ℚ) < 2 ^ (n + 1) := by
    have h1 : n < 2 ^ (n + 1) := Nat.lt_of_lt_of_le (Nat.lt_two_pow n)
      (Nat.pow_le_pow_right (by omega) (by omega))
    exact_mod_cast h1
  have : cap < (1:ℚ) * 2 ^ (n + 1) := by
    rw [one_mul]
    exact lt_trans hn hlt
  linarith

/-! ## Claims C3, C5: the event bus -/

theorem invocationsOf_append (l1 l2 : List BusAction) :
    invocationsOf (l1 ++ l2) = invocationsOf l1 ++ invocationsOf l2 := by
  simp [invocationsOf]

theorem publishedOf_append (l1 l2 : List BusAction) :
    publishedOf (l1 ++ l2) = publishedOf l1 ++ publishedOf l2 := by
  simp [publishedOf]

/-- The inner handler loop invokes exactly the given handlers, in order,
each with the event object itself — whether or not any of them raise. -/
theorem runHandlers_invocations (raises : Nat → BusEvent → Bool) (hs : List Nat)
    (e : BusEvent) :
    invocationsOf (runHandlers raises hs e) = hs.map (fun h => (h, e)) := by
  induction hs with
  | nil => rfl
  | cons h hs ih =>
    by_cases hr : raises h e <;>
      simp [runHandlers, hr, invocationsOf, List.filterMap_append] at ih ⊢ <;>
      exact ih

/-- The inner handler loop publishes nothing: exceptions are only logged. -/
theorem runHandlers_published (raises : Nat → BusEvent → Bool) (hs : List Nat)
    (e : BusEvent) :
    publishedOf (runHandlers raises hs e) = [] := by
  induction hs with
  | nil => rfl
  | cons h hs ih =>
    by_cases hr : raises h e <;>
      simp [runHandlers, hr, publishedOf, List.filterMap_append] at ih ⊢ <;>
      exact ih

/-- The dispatch loop's invocation trace over a queue of events. -/
theorem processEvents_invocations (subs : String → List Nat)
    (raises : Nat → BusEvent → Bool) :
    ∀ queue : List BusEvent,
      invocationsOf (processEvents subs raises queue) =
        queue.flatMap (fun e => (subs e.type).map (fun h => (h, e))) := by
  intro queue
  induction queue with
  | nil => rfl
  | cons e rest ih =>
    simp only [processEvents, invocationsOf_append, runHandlers_invocations, ih,
      List.flatMap_cons]

/-- The dispatch loop publishes nothing. -/
theorem processEvents_published (subs : String → List Nat)
    (raises : Nat → BusEvent → Bool) :
    ∀ queue : List BusEvent, publishedOf (processEvents subs raises queue) = [] := by
  intro queue
  induction queue with
  | nil => rfl
  | cons e rest ih =>
    simp only [processEvents, publishedOf_append, runHandlers_published, ih,
      List.nil_append]

/-- A registry built by `subscribe`/`unsubscribe` has no duplicate
handlers for any type. -/
theorem subsReachable_nodup {s : String → List Nat} (h : SubsReachable s) :
    ∀ ty, (s ty).Nodup := by
  induction h with
  | empty => intro ty; exact List.nodup_nil
  | @sub s ty' hnew _ ih =>
    intro ty
    show (if ty = ty' then (if hnew ∈ s ty' then s ty' else s ty' ++ [hnew]) else s ty).Nodup
    by_cases hty : ty = ty'
    · rw [if_pos hty]
      by_cases hmem : hnew ∈ s ty'
      · rw [if_pos hmem]
        exact ih ty'
      · rw [if_neg hmem]
        rw [List.nodup_append]
        refine ⟨ih ty', List.nodup_singleton hnew, ?_⟩
        intro a ha hb
        rw [List.mem_singleton] at hb
        subst hb
        exact hmem ha
    · rw [if_neg hty]
      exact ih ty
  | @unsub s ty' hdel _ ih =>
    intro ty
    show (if ty = ty' then (s ty').erase hdel else s ty).Nodup
    by_cases hty : ty = ty'
    · rw [if_pos hty]
      exact (ih ty').erase hdel
    · rw [if_neg hty]
      exact ih ty

/-- Claim C3: for every published event and every handler registered for
its type at dispatch time, dispatch invokes that handler exactly once with
the event object itself (payload identity preserved): the invocation trace
is the publish-ordered concatenation, event by event, of the registration-
ordered handler lists — and a registry built by `subscribe`/`unsubscribe`
holds each handler at most once per type, so "exactly once" follows. -/
theorem C3_dispatch_order {subs : String → List Nat} (hsubs : SubsReachable subs)
    (raises : Nat → BusEvent → Bool) (queue : List BusEvent) :
    invocationsOf (processEvents subs raises queue) =
      queue.flatMap (fun e => (subs e.type).map (fun h => (h, e))) ∧
    ∀ ty, (subs ty).Nodup :=
  ⟨processEvents_invocations subs raises queue, subsReachable_nodup hsubs⟩

/-- Witness for C3: two handlers subscribed to type `"a"`, one event. -/
theorem C3_dispatch_order_witness :
    invocationsOf (processEvents subsAB raisesOne [eventA]) =
      [eventA].flatMap (fun e => (subsAB e.type).map (fun h => (h, e))) ∧
    ∀ ty, (subsAB ty).Nodup :=
  C3_dispatch_order
    (SubsReachable.sub "a" 2 (SubsReachable.sub "a" 1 SubsReachable.empty))
    raisesOne [eventA]

/-- Claim C5 counterexample: handler 1 raises on `eventA`, its exception
is caught and logged, sibling handler 2 is still invoked — but the failure
is *not* re-published as an `error.occurred` event: the dispatch loop
publishes nothing at all (and correspondingly contains no recursion
guard). -/
theorem C5_counterexample :
    processEvents subsAB raisesOne [eventA] =
      [BusAction.invoke 1 eventA, BusAction.logError 1 eventA, BusAction.invoke 2 eventA] ∧
    publishedOf (processEvents subsAB raisesOne [eventA]) = [] := by
  constructor <;> rfl

/-- Claim C5 (amended): a handler exception never crashes the dispatch
loop nor suppresses sibling handlers or subsequent events — the invocation
trace is independent of which handlers raise — but the loop only logs the
error: it publishes no `error.occurred` event (re-publication happens only
in the separate `with_error_handling` wrapper, and the loop needs no
recursion guard because it publishes nothing). -/
theorem C5_handler_errors (subs : String → List Nat)
    (raises raises' : Nat → BusEvent → Bool) (queue : List BusEvent) :
    invocationsOf (processEvents subs raises queue) =
      invocationsOf (processEvents subs raises' queue) ∧
    publishedOf (processEvents subs raises queue) = [] := by
  constructor
  · rw [processEvents_invocations, processEvents_invocations]
  · exact processEvents_published subs raises queue

/-! ## Claim C6: the `with_error_handling` retry criterion -/

/-- Claim C6 counterexample: a HIGH-severity failure of category QUEUE —
not a provider (API), network, or rate-limit kind — is still retried by
the wrapper: with `MAX_RETRIES = 3` (the `core/settings.py` value) the
function is attempted 4 times, not once. -/
theorem C6_counterexample :
    ErrCategory.queue ≠ ErrCategory.api ∧
    ErrCategory.queue ≠ ErrCategory.network ∧
    ErrCategory.queue ≠ ErrCategory.rate_limit ∧
    (withErrorHandling ErrCategory.queue ErrSeverity.high 3 alwaysFailQueueHigh).2.1 = 4 := by
  refine ⟨by decide, by decide, by decide, rfl⟩

/-- Claim C6 (amended): the wrapper's retry criterion is the classified
*severity*, not an error-kind allow-list: a failure whose classified
severity is neither CRITICAL nor HIGH propagates after exactly one attempt
(with one `error.occurred` published); and in the queue worker any
execution failure — of whatever kind — takes the retry branch while
`retry_count < max_retries`, so a terminal FAILED with `retry_count = 0`
occurs only when `max_retries = 0`. -/
theorem C6_severity_gate (cat : ErrCategory) (sev : ErrSeverity) (maxR : Nat)
    (f : Nat → Except PyExc Unit) (e : PyExc) (hf : f 0 = Except.error e)
    (h1 : ¬ (classify cat sev e).severity = ErrSeverity.critical)
    (h2 : ¬ (classify cat sev e).severity = ErrSeverity.high) :
    withErrorHandling cat sev maxR f
      = (Except.error (classify cat sev e), 1, ["error.occurred"]) ∧
    (∀ (handlers : String → Option (Nat → ExecOutcome)) (a : Nat) (t : Task) (e' : String),
      ¬ t.status = TaskStatus.cancelled → executeTask handlers a t = ExecOutcome.err e' →
      t.metrics.retry_count < t.max_retries →
      (workerIteration handlers a t).task.status = TaskStatus.retry) := by
  constructor
  · unfold withErrorHandling
    rw [hf]
    show (if (classify cat sev e).severity = ErrSeverity.critical ∨
        (classify cat sev e).severity = ErrSeverity.high then _ else _) = _
    rw [if_neg (by push_neg; exact ⟨h1, h2⟩)]
  · intro handlers a t e' hcanc hex hlt
    rw [workerIteration_err handlers a t e' hcanc hex, if_pos hlt]

/-- Witness for C6 (amended): a MEDIUM-severity failure propagates after
one attempt. -/
theorem C6_severity_gate_witness :
    withErrorHandling ErrCategory.queue ErrSeverity.medium 3 alwaysFailOther
      = (Except.error ⟨"oops", ErrCategory.queue, ErrSeverity.medium⟩, 1,
          ["error.occurred"]) ∧
    (∀ (handlers : String → Option (Nat → ExecOutcome)) (a : Nat) (t : Task) (e' : String),
      ¬ t.status = TaskStatus.cancelled → executeTask handlers a t = ExecOutcome.err e' →
      t.metrics.retry_count < t.max_retries →
      (workerIteration handlers a t).task.status = TaskStatus.retry) :=
  C6_severity_gate ErrCategory.queue ErrSeverity.medium 3 alwaysFailOther
    (PyExc.other "oops") rfl (by decide) (by decide)

/-! ## Claim C7: `cancel(task_id)` -/

/-- Claim C7 (against the spec-modelled `cancel`): cancelling a PENDING
task returns true, sets its status to CANCELLED and publishes
`task_cancelled`, and the worker loop skips the cancelled task without
invoking any handler or publishing anything; in any other status `cancel`
returns false and leaves the task table — metrics included — unchanged. -/
theorem C7_cancel (tasks : TaskTable) (tid : Nat) (t : Task)
    (ht : tasks tid = some t) :
    (t.status = TaskStatus.pending →
      (cancelTask tasks tid).2.1 = true ∧
      (cancelTask tasks tid).1 tid = some { t with status := TaskStatus.cancelled } ∧
      (cancelTask tasks tid).2.2 = [QEvent.task_cancelled] ∧
      (∀ (handlers : String → Option (Nat → ExecOutcome)) (a : Nat),
        workerIteration handlers a { t with status := TaskStatus.cancelled } =
          { task := { t with status := TaskStatus.cancelled },
            events := [], delays := [], invocations := 0 })) ∧
    (¬ t.status = TaskStatus.pending →
      (cancelTask tasks tid).2.1 = false ∧
      (cancelTask tasks tid).1 = tasks ∧
      (cancelTask tasks tid).2.2 = []) := by
  have hred : cancelTask tasks tid =
      if t.status = TaskStatus.pending then
        (fun i => if i = tid then some { t with status := TaskStatus.cancelled }
          else tasks i, true, [QEvent.task_cancelled])
      else (tasks, false, []) := by
    unfold cancelTask
    rw [ht]
  rw [hred]
  constructor
  · intro hp
    rw [if_pos hp]
    refine ⟨rfl, ?_, rfl, ?_⟩
    · show (if tid = tid then some { t with status := TaskStatus.cancelled }
        else tasks tid) = some { t with status := TaskStatus.cancelled }
      rw [if_pos rfl]
    · intro handlers a
      unfold workerIteration
      rw [if_pos rfl]
  · intro hp
    rw [if_neg hp]
    exact ⟨rfl, rfl, rfl⟩

/-- Witness for C7: cancelling the pending task 1 succeeds; cancelling the
completed task 2 is a no-op returning false. -/
theorem C7_cancel_witness :
    ((taskC1.status = TaskStatus.pending →
      (cancelTask tasksW 1).2.1 = true ∧
      (cancelTask tasksW 1).1 1 = some { taskC1 with status := TaskStatus.cancelled } ∧
      (cancelTask tasksW 1).2.2 = [QEvent.task_cancelled] ∧
      (∀ (handlers : String → Option (Nat → ExecOutcome)) (a : Nat),
        workerIteration handlers a { taskC1 with status := TaskStatus.cancelled } =
          { task := { taskC1 with status := TaskStatus.cancelled },
            events := [], delays := [], invocations := 0 })) ∧
    (¬ taskC1.status = TaskStatus.pending →
      (cancelTask tasksW 1).2.1 = false ∧
      (cancelTask tasksW 1).1 = tasksW ∧
      (cancelTask tasksW 1).2.2 = [])) ∧
    ((taskDone.status = TaskStatus.pending →
      (cancelTask tasksW 2).2.1 = true ∧
      (cancelTask tasksW 2).1 2 = some { taskDone with status := TaskStatus.cancelled } ∧
      (cancelTask tasksW 2).2.2 = [QEvent.task_cancelled] ∧
      (∀ (handlers : String → Option (Nat → ExecOutcome)) (a : Nat),
        workerIteration handlers a { taskDone with status := TaskStatus.cancelled } =
          { task := { taskDone with status := TaskStatus.cancelled },
            events := [], delays := [], invocations := 0 })) ∧
    (¬ taskDone.status = TaskStatus.pending →
      (cancelTask tasksW 2).2.1 = false ∧
      (cancelTask tasksW 2).1 = tasksW ∧
      (cancelTask tasksW 2).2.2 = [])) :=
  ⟨C7_cancel tasksW 1 taskC1 rfl, C7_cancel tasksW 2 taskDone rfl⟩

/-! ## Claims C8, C10: the rate limiter -/

theorem getWindow_none {st : RLState} {k : String} (now : Nat) (h : st.windows k = none) :
    getWindow st k now = { requests := 0, tokens := 0, start_time := now } := by
  unfold getWindow
  rw [h]

theorem getWindow_some {st : RLState} {k : String} {w : RLWindow} (now : Nat)
    (h : st.windows k = some w) : getWindow st k now = w := by
  unfold getWindow
  rw [h]

theorem maybeExpire_live {w : RLWindow} {now : Nat} (h : ¬ 60 * MICROS < now - w.start_time) :
    maybeExpire w now = w := by
  unfold maybeExpire
  rw [if_neg h]

theorem requestGate_pass {st : RLState} {w : RLWindow} (now : Nat)
    (h : ¬ st.requests_per_minute ≤ w.requests) :
    requestGate st w now = (w, now, []) := by
  unfold requestGate
  rw [if_neg h]

theorem requestGate_block {st : RLState} {w : RLWindow} (now : Nat)
    (h : st.requests_per_minute ≤ w.requests) :
    requestGate st w now =
      ({ requests := 0, tokens := 0,
          start_time := now + (60 - tdSeconds (now - w.start_time)) * MICROS },
        now + (60 - tdSeconds (now - w.start_time)) * MICROS,
        [60 - tdSeconds (now - w.start_time)]) := by
  unfold requestGate
  rw [if_pos h]

theorem tokenGate_pass {st : RLState} {w : RLWindow} (tokens now : Nat)
    (h : ¬ st.tokens_per_minute < w.tokens + tokens) :
    tokenGate st w tokens now = (w, now, []) := by
  unfold tokenGate
  rw [if_neg h]

theorem tokenGate_block {st : RLState} {w : RLWindow} (tokens now : Nat)
    (h : st.tokens_per_minute < w.tokens + tokens) :
    tokenGate st w tokens now =
      ({ requests := 0, tokens := 0,
          start_time := now + (60 - tdSeconds (now - w.start_time)) * MICROS },
        now + (60 - tdSeconds (now - w.start_time)) * MICROS,
        [60 - tdSeconds (now - w.start_time)]) := by
  unfold tokenGate
  rw [if_pos h]

theorem requestGate_sleeps_le (st : RLState) (w : RLWindow) (now : Nat) :
    (requestGate st w now).2.2.length ≤ 1 := by
  unfold requestGate
  split <;> simp

/-- `acquire` on a live window with headroom in both budgets: grant
immediately, counting the request and its cost. -/
theorem acquire_pass (st : RLState) (k : String) (c now : Nat) (w : RLWindow)
    (hw : st.windows k = some w)
    (hexp : ¬ 60 * MICROS < now - w.start_time)
    (hreq : ¬ st.requests_per_minute ≤ w.requests)
    (htok : ¬ st.tokens_per_minute < w.tokens + c) :
    st.acquire k c now = ({ st with
      windows := fun m =>
        if m = k then some ⟨w.requests + 1, w.tokens + c, w.start_time⟩
        else st.windows m }, now, []) := by
  have g1 := getWindow_some now hw
  have g3 := requestGate_pass now hreq
  have g4 := tokenGate_pass c now htok
  simp only [RLState.acquire, g1, maybeExpire_live hexp, g3, g4]
  simp

/-- `acquire` on a live window with the request budget exhausted and the
cost fitting an empty window: one sleep, reset, grant. -/
theorem acquire_requests_blocked (st : RLState) (k : String) (c now : Nat) (w : RLWindow)
    (hw : st.windows k = some w)
    (hexp : ¬ 60 * MICROS < now - w.start_time)
    (hreq : st.requests_per_minute ≤ w.requests)
    (htok : ¬ st.tokens_per_minute < 0 + c) :
    st.acquire k c now = ({ st with
      windows := fun m =>
        if m = k then
          some ⟨1, c, now + (60 - tdSeconds (now - w.start_time)) * MICROS⟩
        else st.windows m },
      now + (60 - tdSeconds (now - w.start_time)) * MICROS,
      [60 - tdSeconds (now - w.start_time)]) := by
  have g1 := getWindow_some now hw
  have g3 := requestGate_block now hreq
  have g4 : tokenGate st ⟨0, 0, now + (60 - tdSeconds (now - w.start_time)) * MICROS⟩ c
      (now + (60 - tdSeconds (now - w.start_time)) * MICROS) =
      (⟨0, 0, now + (60 - tdSeconds (now - w.start_time)) * MICROS⟩,
        now + (60 - tdSeconds (now - w.start_time)) * MICROS, []) :=
    tokenGate_pass c _ (by show ¬ st.tokens_per_minute < 0 + c; exact htok)
  simp only [RLState.acquire, g1, maybeExpire_live hexp, g3, g4]
  simp

/-- Claim C8: with `requests_per_minute = 2` and a fresh key, three
back-to-back `acquire` calls within one window: the first two return
immediately; the third sleeps `60 - elapsed.seconds` seconds — never
returning before the window reset at `start + 60s` — then starts a fresh
window and grants. -/
theorem C8_third_call_waits (st0 : RLState) (k : String) (c tpm t1 t2 t3 : Nat)
    (hrpm : st0.requests_per_minute = 2) (htpm : st0.tokens_per_minute = tpm)
    (hkey : st0.windows k = none)
    (h12 : t1 ≤ t2) (h23 : t2 ≤ t3) (hwin : t3 - t1 ≤ 60 * MICROS) (hc2 : c + c ≤ tpm)
    (st1 st2 st3 : RLState) (r1t r2t r3t : Nat) (s1 s2 s3 : List Nat)
    (e1 : st0.acquire k c t1 = (st1, r1t, s1))
    (e2 : st1.acquire k c t2 = (st2, r2t, s2))
    (e3 : st2.acquire k c t3 = (st3, r3t, s3)) :
    r1t = t1 ∧ s1 = [] ∧ r2t = t2 ∧ s2 = [] ∧
    s3 = [60 - tdSeconds (t3 - t1)] ∧
    r3t = t3 + (60 - tdSeconds (t3 - t1)) * MICROS ∧
    t1 + 60 * MICROS ≤ r3t ∧
    st3.windows k = some { requests := 1, tokens := c, start_time := r3t } := by
  have m1 : st0.acquire k c t1 = ({ st0 with
      windows := fun m =>
        if m = k then some ⟨1, c, t1⟩ else st0.windows m }, t1, []) := by
    have g1 : getWindow st0 k t1 = ⟨0, 0, t1⟩ := getWindow_none t1 hkey
    have g2 : maybeExpire (⟨0, 0, t1⟩ : RLWindow) t1 = ⟨0, 0, t1⟩ :=
      maybeExpire_live (by show ¬ 60 * MICROS < t1 - t1; omega)
    have g3 : requestGate st0 ⟨0, 0, t1⟩ t1 = (⟨0, 0, t1⟩, t1, []) :=
      requestGate_pass t1 (by show ¬ st0.requests_per_minute ≤ 0; omega)
    have g4 : tokenGate st0 ⟨0, 0, t1⟩ c t1 = (⟨0, 0, t1⟩, t1, []) :=
      tokenGate_pass c t1 (by show ¬ st0.tokens_per_minute < 0 + c; omega)
    simp only [RLState.acquire, g1, g2, g3, g4]
    simp
  rw [m1] at e1
  simp only [Prod.mk.injEq] at e1
  obtain ⟨hst1, hr1t, hs1⟩ := e1
  have hw1 : st1.windows k = some ⟨1, c, t1⟩ := by
    rw [← hst1]
    simp
  have hb1 : st1.requests_per_minute = 2 := by
    rw [← hst1]
    exact hrpm
  have hbt1 : st1.tokens_per_minute = tpm := by
    rw [← hst1]
    exact htpm
  have m2 := acquire_pass st1 k c t2 ⟨1, c, t1⟩ hw1
    (by show ¬ 60 * MICROS < t2 - t1; omega)
    (by show ¬ st1.requests_per_minute ≤ 1; rw [hb1]; omega)
    (by show ¬ st1.tokens_per_minute < c + c; rw [hbt1]; omega)
  rw [m2] at e2
  simp only [Prod.mk.injEq] at e2
  obtain ⟨hst2, hr2t, hs2⟩ := e2
  have hw2 : st2.windows k = some ⟨2, c + c, t1⟩ := by
    rw [← hst2]
    simp
  have hb2 : st2.requests_per_minute = 2 := by
    rw [← hst2]
    exact hb1
  have hbt2 : st2.tokens_per_minute = tpm := by
    rw [← hst2]
    exact hbt1
  have m3 := acquire_requests_blocked st2 k c t3 ⟨2, c + c, t1⟩ hw2
    (by show ¬ 60 * MICROS < t3 - t1; omega)
    (by show st2.requests_per_minute ≤ 2; rw [hb2])
    (by show ¬ st2.tokens_per_minute < 0 + c; rw [hbt2]; omega)
  rw [m3] at e3
  simp only [Prod.mk.injEq] at e3
  obtain ⟨hst3, hr3t, hs3⟩ := e3
  refine ⟨hr1t.symm, hs1.symm, hr2t.symm, hs2.symm, hs3.symm, hr3t.symm, ?_, ?_⟩
  · rw [← hr3t]
    unfold tdSeconds MICROS
    unfold MICROS at hwin
    omega
  · rw [← hst3, ← hr3t]
    simp

/-- Witness for C8: three acquires at time 0 on a fresh key with
`requests_per_minute = 2`; the third returns at the window reset. -/
theorem C8_third_call_waits_witness :
    rlA1.2.1 = 0 ∧ rlA1.2.2 = [] ∧ rlA2.2.1 = 0 ∧ rlA2.2.2 = [] ∧
    rlA3.2.2 = [60 - tdSeconds (0 - 0)] ∧
    rlA3.2.1 = 0 + (60 - tdSeconds (0 - 0)) * MICROS ∧
    0 + 60 * MICROS ≤ rlA3.2.1 ∧
    rlA3.1.windows "gpt-4" = some { requests := 1, tokens := 1, start_time := rlA3.2.1 } :=
  C8_third_call_waits rlFresh "gpt-4" 1 90000 0 0 0 rfl rfl rfl
    (by omega) (by omega) (by decide) (by decide)
    rlA1.1 rlA2.1 rlA3.1 rlA1.2.1 rlA2.2.1 rlA3.2.1 rlA1.2.2 rlA2.2.2 rlA3.2.2
    rfl rfl rfl

/-- Claim C10 (amended): when the cost alone exceeds the whole token
budget, `acquire` still grants: the token check triggers exactly one
sleep-and-reset, a second (earlier) sleep occurs only when the request
budget is also exhausted — at most two in total, exactly one when the live
window has request headroom — and afterwards the window's token counter
equals the cost, strictly exceeding `tokens_per_minute`: the per-window
cost budget is not an enforced upper bound on a single acquisition. -/
theorem C10_token_budget_not_cap (st : RLState) (k : String) (c now tpm : Nat)
    (htpm : st.tokens_per_minute = tpm) (hc : tpm < c)
    (stR : RLState) (rt : Nat) (sl : List Nat)
    (he : st.acquire k c now = (stR, rt, sl)) :
    sl.length ≤ 2 ∧
    (∀ w, st.windows k = some w → ¬ 60 * MICROS < now - w.start_time →
      w.requests < st.requests_per_minute → sl.length = 1) ∧
    stR.windows k = some { requests := 1, tokens := c, start_time := rt } ∧
    st.tokens_per_minute < c := by
  have gtok : tokenGate st (requestGate st (maybeExpire (getWindow st k now) now) now).1 c
      (requestGate st (maybeExpire (getWindow st k now) now) now).2.1 =
      (⟨0, 0, (requestGate st (maybeExpire (getWindow st k now) now) now).2.1 +
          (60 - tdSeconds
            ((requestGate st (maybeExpire (getWindow st k now) now) now).2.1 -
              (requestGate st (maybeExpire (getWindow st k now) now) now).1.start_time))
          * MICROS⟩,
        (requestGate st (maybeExpire (getWindow st k now) now) now).2.1 +
          (60 - tdSeconds
            ((requestGate st (maybeExpire (getWindow st k now) now) now).2.1 -
              (requestGate st (maybeExpire (getWindow st k now) now) now).1.start_time))
          * MICROS,
        [60 - tdSeconds
          ((requestGate st (maybeExpire (getWindow st k now) now) now).2.1 -
            (requestGate st (maybeExpire (getWindow st k now) now) now).1.start_time)]) :=
    tokenGate_block c _ (by rw [htpm]; omega)
  have hacq : st.acquire k c now = ({ st with
      windows := fun m =>
        if m = k then
          some ⟨1, c, (requestGate st (maybeExpire (getWindow st k now) now) now).2.1 +
            (60 - tdSeconds
              ((requestGate st (maybeExpire (getWindow st k now) now) now).2.1 -
                (requestGate st (maybeExpire (getWindow st k now) now) now).1.start_time))
            * MICROS⟩
        else st.windows m },
      (requestGate st (maybeExpire (getWindow st k now) now) now).2.1 +
        (60 - tdSeconds
          ((requestGate st (maybeExpire (getWindow st k now) now) now).2.1 -
            (requestGate st (maybeExpire (getWindow st k now) now) now).1.start_time))
        * MICROS,
      (requestGate st (maybeExpire (getWindow st k now) now) now).2.2 ++
        [60 - tdSeconds
          ((requestGate st (maybeExpire (getWindow st k now) now) now).2.1 -
            (requestGate st (maybeExpire (getWindow st k now) now) now).1.start_time)]) := by
    simp only [RLState.acquire, gtok]
    simp
  rw [hacq] at he
  simp only [Prod.mk.injEq] at he
  obtain ⟨hstR, hrt, hsl⟩ := he
  refine ⟨?_, ?_, ?_, by rw [htpm]; exact hc⟩
  · rw [← hsl]
    rw [List.length_append]
    have := requestGate_sleeps_le st (maybeExpire (getWindow st k now) now) now
    simp only [List.length_cons, List.length_nil]
    omega
  · intro w hw hexp hreq
    have hpass : requestGate st (maybeExpire (getWindow st k now) now) now = (w, now, []) := by
      rw [getWindow_some now hw, maybeExpire_live hexp]
      exact requestGate_pass now (by omega)
    rw [← hsl, hpass]
    rfl
  · rw [← hstR, ← hrt]
    simp

/-- Witness for C10 (amended): cost 6 against a 5-token budget on a fresh
key is granted with one sleep, token counter 6 > 5. -/
theorem C10_token_budget_not_cap_witness :
    rlTokA.2.2.length ≤ 2 ∧
    (∀ w, rlTok.windows "gpt-4" = some w → ¬ 60 * MICROS < 0 - w.start_time →
      w.requests < rlTok.requests_per_minute → rlTokA.2.2.length = 1) ∧
    rlTokA.1.windows "gpt-4" = some { requests := 1, tokens := 6, start_time := rlTokA.2.1 } ∧
    rlTok.tokens_per_minute < 6 :=
  C10_token_budget_not_cap rlTok "gpt-4" 6 0 5 rfl (by omega)
    rlTokA.1 rlTokA.2.1 rlTokA.2.2 rfl

/-- Claim C10 counterexample: when the request budget is also exhausted, a
call with `cost > tokens_per_minute` performs *two* sleep-and-reset cycles
(one per budget), not at most one: with both budgets exceeded the sleeps
are `[60, 60]`. -/
theorem C10_counterexample :
    rlSt10.tokens_per_minute < 6 ∧
    (rlSt10.acquire "gpt-4" 6 0).2.2 = [60, 60] ∧
    ((rlSt10.acquire "gpt-4" 6 0).2.2).length = 2 := by
  refine ⟨by decide, ?_, ?_⟩ <;> rfl

end DocSmith
